import Mathlib

/-!
Verification of the BitwardenDecrypt decryption pipeline
(src/BitwardenDecrypt.py) against its natural-language specification.

The Python source is shallowly embedded below.  Bytes are `List Nat`
(each entry a byte value).  The two cryptographic primitives that the
source takes from the external `cryptography` package and whose inner
workings are irrelevant to the claims — AES-256-CBC block decryption and
RSA-OAEP decryption — are modelled as explicit function parameters
(`AesCbc`, `RsaOaep`); everything else (SHA-256, HMAC, HKDF-Expand,
PBKDF2, PKCS#7 unpadding, base64, UTF-8, JSON serialization, the regex
scan) is implemented concretely so that theorems can be evaluated on
concrete inputs.  Python exceptions are modelled with `Except`/explicit
result constructors; an uncaught exception aborts the run exactly as in
CPython.  All recursion is structural so that the kernel can evaluate
every definition.
-/

set_option maxRecDepth 100000

set_option maxHeartbeats 1000000

abbrev Bytes := List Nat

/-! ## SHA-256 (RFC 6234), byte-level, executable -/

def w32 (x : Nat) : Nat := x % 4294967296

def rotr (n x : Nat) : Nat := w32 ((x >>> n) ||| (x <<< (32 - n)))

def sha256K : List Nat :=
  [1116352408, 1899447441, 3049323471, 3921009573, 961987163, 1508970993,
   2453635748, 2870763221, 3624381080, 310598401, 607225278, 1426881987,
   1925078388, 2162078206, 2614888103, 3248222580, 3835390401, 4022224774,
   264347078, 604807628, 770255983, 1249150122, 1555081692, 1996064986,
   2554220882, 2821834349, 2952996808, 3210313671, 3336571891, 3584528711,
   113926993, 338241895, 666307205, 773529912, 1294757372, 1396182291,
   1695183700, 1986661051, 2177026350, 2456956037, 2730485921, 2820302411,
   3259730800, 3345764771, 3516065817, 3600352804, 4094571909, 275423344,
   430227734, 506948616, 659060556, 883997877, 958139571, 1322822218,
   1537002063, 1747873779, 1955562222, 2024104815, 2227730452, 2361852424,
   2428436474, 2756734187, 3204031479, 3329325298]

def sha256H0 : List Nat :=
  [1779033703, 3144134277, 1013904242, 2773480762,
   1359893119, 2600822924, 528734635, 1541459225]

def toWordsBE : Bytes → List Nat
  | a :: b :: c :: d :: rest => (a * 16777216 + b * 65536 + c * 256 + d) :: toWordsBE rest
  | _ => []

def sha256Pad (msg : Bytes) : Bytes :=
  let len := msg.length
  let zeros := (55 + 64 - len % 64) % 64
  let bitLen := len * 8
  msg ++ [0x80] ++ List.replicate zeros 0 ++
    [(bitLen / 72057594037927936) % 256, (bitLen / 281474976710656) % 256,
     (bitLen / 1099511627776) % 256, (bitLen / 4294967296) % 256,
     (bitLen / 16777216) % 256, (bitLen / 65536) % 256, (bitLen / 256) % 256, bitLen % 256]

def msgSchedule (ws : List Nat) : Nat → List Nat
  | 0 => ws
  | i + 1 =>
    let n := ws.length
    let w15 := ws.getD (n - 15) 0
    let w2 := ws.getD (n - 2) 0
    let s0 := (rotr 7 w15) ^^^ (rotr 18 w15) ^^^ (w15 >>> 3)
    let s1 := (rotr 17 w2) ^^^ (rotr 19 w2) ^^^ (w2 >>> 10)
    msgSchedule (ws ++ [w32 (ws.getD (n - 16) 0 + s0 + ws.getD (n - 7) 0 + s1)]) i

def compressRound (st : List Nat) (kw : Nat) : List Nat :=
  match st with
  | [a, b, c, d, e, f, g, h] =>
    let s1 := (rotr 6 e) ^^^ (rotr 11 e) ^^^ (rotr 25 e)
    let ch := (e &&& f) ^^^ ((4294967295 - e) &&& g)
    let t1 := w32 (h + s1 + ch + kw)
    let s0 := (rotr 2 a) ^^^ (rotr 13 a) ^^^ (rotr 22 a)
    let mj := (a &&& b) ^^^ (a &&& c) ^^^ (b &&& c)
    let t2 := w32 (s0 + mj)
    [w32 (t1 + t2), a, b, c, w32 (d + t1), e, f, g]
  | other => other

def sha256Block (h : List Nat) (block : Bytes) : List Nat :=
  let ws := msgSchedule (toWordsBE block) 48
  let kws := (sha256K.zip ws).map (fun p => w32 (p.1 + p.2))
  let st := kws.foldl compressRound h
  (h.zip st).map (fun p => w32 (p.1 + p.2))

def chunks64Go : Nat → Bytes → List Bytes
  | 0, _ => []
  | _, [] => []
  | fuel + 1, b :: bs => (b :: bs).take 64 :: chunks64Go fuel ((b :: bs).drop 64)

def chunks64 (bs : Bytes) : List Bytes := chunks64Go bs.length bs

def wordBytesBE (x : Nat) : Bytes :=
  [(x / 16777216) % 256, (x / 65536) % 256, (x / 256) % 256, x % 256]

def sha256 (msg : Bytes) : Bytes :=
  ((chunks64 (sha256Pad msg)).foldl sha256Block sha256H0).flatMap wordBytesBE

/-! ## HMAC-SHA256, HKDF-Expand, PBKDF2 (the KDF primitives used by the source) -/

def hmacSha256 (key msg : Bytes) : Bytes :=
  let k0 := if 64 < key.length then sha256 key else key
  let kp := k0 ++ List.replicate (64 - k0.length) 0
  let ipad := kp.map (fun b => b ^^^ 54)
  let opad := kp.map (fun b => b ^^^ 92)
  sha256 (opad ++ sha256 (ipad ++ msg))

/-- HKDF-Expand with SHA-256 for a 32-byte output (one round):
`HKDFExpand(algorithm=SHA256, length=32, info=info).derive(prk)`. -/
def hkdfExpand32 (prk info : Bytes) : Bytes := hmacSha256 prk (info ++ [1])

def pbkdf2Go (password : Bytes) : Bytes → Bytes → Nat → Bytes
  | _, acc, 0 => acc
  | u, acc, k + 1 =>
    let u2 := hmacSha256 password u
    pbkdf2Go password u2 ((acc.zip u2).map (fun p => p.1 ^^^ p.2)) k

/-- PBKDF2-HMAC-SHA256 with a 32-byte output (= one SHA-256 block of the
derived key), as used by `PBKDF2HMAC(algorithm=SHA256, length=32, ...)`.
Meaningful for `iterations ≥ 1` (the source always passes at least 1). -/
def pbkdf2Sha256 (password salt : Bytes) (iterations : Nat) : Bytes :=
  let u1 := hmacSha256 password (salt ++ [0, 0, 0, 1])
  pbkdf2Go password u1 u1 (iterations - 1)

/-! ## PKCS#7 unpadding (cryptography.hazmat.primitives.padding.PKCS7(128).unpadder) -/

/-- PKCS#7 unpadding for a 128-bit block size.  `none` models the
`ValueError` the unpadder raises on invalid padding (including inputs
that are empty or not a multiple of the block size). -/
def pkcs7Unpad (data : Bytes) : Option Bytes :=
  let n := data.length
  if n = 0 ∨ n % 16 ≠ 0 then none
  else
    let p := data.getLastD 0
    if 1 ≤ p ∧ p ≤ 16 ∧ (data.drop (n - p)).all (fun b => b == p) = true then
      some (data.take (n - p))
    else none

/-! ## base64 (Python base64.b64decode / b64encode)

`base64.b64decode` with the default `validate=False` discards every
character outside the base64 alphabet before decoding, treats enough
padding as end of data, and raises `binascii.Error` only when the count
of remaining data characters is wrong.  The state machine below is a
direct transcription of CPython binascii.a2b_base64 in non-strict mode:
state = (remaining input, quad position, pending bits, pad count, output). -/

def b64Val (c : Char) : Option Nat :=
  let n := c.toNat
  if 65 ≤ n ∧ n ≤ 90 then some (n - 65)
  else if 97 ≤ n ∧ n ≤ 122 then some (n - 97 + 26)
  else if 48 ≤ n ∧ n ≤ 57 then some (n - 48 + 52)
  else if n = 43 then some 62
  else if n = 47 then some 63
  else none

def b64decodeGo : List Char → Nat → Nat → Nat → Bytes → Option Bytes
  | [], 0, _, _, acc => some acc.reverse
  | [], _, _, _, _ => none
  | c :: cs, qp, left, pads, acc =>
    if c = '=' then
      if 2 ≤ qp then
        if 4 ≤ qp + (pads + 1) then some acc.reverse
        else b64decodeGo cs qp left (pads + 1) acc
      else b64decodeGo cs qp left pads acc
    else
      match b64Val c with
      | none => b64decodeGo cs qp left pads acc
      | some v =>
        match qp with
        | 0 => b64decodeGo cs 1 v 0 acc
        | 1 => b64decodeGo cs 2 (v % 16) 0 ((left * 4 + v / 16) :: acc)
        | 2 => b64decodeGo cs 3 (v % 4) 0 ((left * 16 + v / 4) :: acc)
        | _ => b64decodeGo cs 0 0 0 ((left * 64 + v) :: acc)

/-- `base64.b64decode` on a `str` argument (which is first encoded as
ASCII, raising on non-ASCII input).  `none` models a raised exception. -/
def b64decode (s : String) : Option Bytes :=
  if s.data.any (fun c => 128 ≤ c.toNat) then none
  else b64decodeGo s.data 0 0 0 []

def b64Char (n : Nat) : Char :=
  if n < 26 then Char.ofNat (65 + n)
  else if n < 52 then Char.ofNat (97 + n - 26)
  else if n < 62 then Char.ofNat (48 + n - 52)
  else if n = 62 then Char.ofNat 43
  else Char.ofNat 47

def b64encodeGo : Bytes → List Char
  | a :: b :: c :: rest =>
    b64Char (a / 4) :: b64Char ((a % 4) * 16 + b / 16) :: b64Char ((b % 16) * 4 + c / 64) ::
      b64Char (c % 64) :: b64encodeGo rest
  | [a, b] => [b64Char (a / 4), b64Char ((a % 4) * 16 + b / 16), b64Char ((b % 16) * 4), '=']
  | [a] => [b64Char (a / 4), b64Char ((a % 4) * 16), '=', '=']
  | [] => []

def b64encode (bs : Bytes) : String := String.mk (b64encodeGo bs)

/-! ## UTF-8 (bytes.decode / str.encode) -/

def utf8EncodeChar (n : Nat) : Bytes :=
  if n < 128 then [n]
  else if n < 2048 then [192 + n / 64, 128 + n % 64]
  else if n < 65536 then [224 + n / 4096, 128 + (n / 64) % 64, 128 + n % 64]
  else [240 + n / 262144, 128 + (n / 4096) % 64, 128 + (n / 64) % 64, 128 + n % 64]

def utf8Encode (s : String) : Bytes := s.data.flatMap (fun c => utf8EncodeChar c.toNat)

def utf8Cont (b : Nat) : Bool := decide (128 ≤ b ∧ b < 192)

def utf8DecodeGo : Bytes → List Char → Option (List Char)
  | [], acc => some acc.reverse
  | b :: bs, acc =>
    if b < 128 then utf8DecodeGo bs (Char.ofNat b :: acc)
    else if b < 194 then none
    else if b < 224 then
      match bs with
      | b2 :: rest =>
        if utf8Cont b2 then utf8DecodeGo rest (Char.ofNat ((b - 192) * 64 + (b2 - 128)) :: acc)
        else none
      | _ => none
    else if b < 240 then
      match bs with
      | b2 :: b3 :: rest =>
        if utf8Cont b2 ∧ utf8Cont b3 then
          let n := (b - 224) * 4096 + (b2 - 128) * 64 + (b3 - 128)
          if 2048 ≤ n ∧ (n < 55296 ∨ 57344 ≤ n) then utf8DecodeGo rest (Char.ofNat n :: acc)
          else none
        else none
      | _ => none
    else if b < 245 then
      match bs with
      | b2 :: b3 :: b4 :: rest =>
        if utf8Cont b2 ∧ utf8Cont b3 ∧ utf8Cont b4 then
          let n := (b - 240) * 262144 + (b2 - 128) * 4096 + (b3 - 128) * 64 + (b4 - 128)
          if 65536 ≤ n ∧ n < 1114112 then utf8DecodeGo rest (Char.ofNat n :: acc)
          else none
        else none
      | _ => none
    else none

/-- `bytes.decode` with the default strict UTF-8 codec; `none` models a
raised `UnicodeDecodeError`. -/
def utf8Decode (bs : Bytes) : Option String := (utf8DecodeGo bs []).map String.mk

/-! ## Python-level helpers: str.split, int(), exceptions -/

/-- One Python exception kind per distinct raise site relevant to the
pipeline; an uncaught exception terminates the run. -/
inductive PyExc where
  /-- `ValueError` from `int()`, `IndexError` from list indexing, or
  `binascii.Error` from `base64.b64decode`, all raised while pulling a
  CipherString apart (lines 125-128 / 166-169 / 197-200 / 223-224). -/
  | formatError
  /-- `ValueError` from cipher parameter validation: a non-16-byte IV at
  `modes.CBC`, or a ciphertext that is not a whole number of blocks at
  `decryptor.finalize()`. -/
  | valueError
  /-- `ValueError` raised by `unpadder.update/finalize` on bad PKCS#7 padding. -/
  | paddingError
  /-- `UnicodeDecodeError` from `cleartext.decode("utf-8")`. -/
  | unicodeError
  /-- `TypeError`: a non-bytes object passed to `load_der_private_key`. -/
  | typeError
  /-- `NameError`: `encKey`/`macKey` referenced before any assignment. -/
  | nameError
  /-- `AttributeError`: `.items()` called on a non-dict group value. -/
  | attributeError
  /-- failure inside `load_der_private_key` on byte input or RSA-OAEP decryption. -/
  | oaepError
deriving DecidableEq

/-- Python `str.split(sep)` for a single-character separator (the source
only splits on "." and "|"). -/
def pySplitGo (sep : Char) : List Char → List Char → List String
  | [], cur => [String.mk cur.reverse]
  | c :: cs, cur =>
    if c = sep then String.mk cur.reverse :: pySplitGo sep cs []
    else pySplitGo sep cs (c :: cur)

def pySplit (s : String) (sep : Char) : List String := pySplitGo sep s.data []

def isAsciiDigit (c : Char) : Bool := decide (48 ≤ c.toNat ∧ c.toNat ≤ 57)

def isPyWhitespace (c : Char) : Bool :=
  decide (c.toNat = 32 ∨ c.toNat = 9 ∨ c.toNat = 10 ∨ c.toNat = 13 ∨ c.toNat = 11 ∨ c.toNat = 12)

def pyDigitsGo : List Char → Nat → Bool → Option Nat
  | [], acc, true => some acc
  | [], _, false => none
  | c :: cs, acc, lastWasDigit =>
    if isAsciiDigit c then pyDigitsGo cs (acc * 10 + (c.toNat - 48)) true
    else if c = '_' then
      if lastWasDigit then pyDigitsGo cs acc false else none
    else none

/-- Python `int(str)`: optional ASCII whitespace, optional sign, decimal
digits with single underscores between digits.  (Exotic Unicode digits
and whitespace accepted by CPython are not modelled; no claim depends on
them.)  `none` models a raised `ValueError`. -/
def pyInt (s : String) : Option Int :=
  let cs := (((s.data.dropWhile isPyWhitespace).reverse.dropWhile isPyWhitespace)).reverse
  match cs with
  | '-' :: rest => (pyDigitsGo rest 0 false).map (fun n => -(n : Int))
  | '+' :: rest => (pyDigitsGo rest 0 false).map (fun n => (n : Int))
  | rest => (pyDigitsGo rest 0 false).map (fun n => (n : Int))

/-! ## CipherString parsing (lines 125-128, 166-169, 197-200, 223-224)

All three symmetric decrypt functions run the same four statements:
`encType = int(cs.split(".")[0])`, then base64-decode
`cs.split(".")[1].split("|")[k]` for k = 0, 1, 2; any of the statements
may raise (ValueError / IndexError / binascii.Error), all modelled as
`PyExc.formatError`.  `decryptRSA` only reads segment 0. -/

structure ParsedCS where
  encType : Int
  iv : Bytes
  ct : Bytes
  mac : Bytes
deriving DecidableEq

def parseCipherString (cs : String) : Except PyExc ParsedCS :=
  let dotParts := pySplit cs '.'
  match pyInt (dotParts.getD 0 "") with
  | none => .error .formatError
  | some et =>
    match dotParts.get? 1 with
    | none => .error .formatError
    | some seg =>
      let pipeParts := pySplit seg '|'
      match b64decode (pipeParts.getD 0 "") with
      | none => .error .formatError
      | some iv =>
        match pipeParts.get? 1 with
        | none => .error .formatError
        | some p1 =>
          match b64decode p1 with
          | none => .error .formatError
          | some ct =>
            match pipeParts.get? 2 with
            | none => .error .formatError
            | some p2 =>
              match b64decode p2 with
              | none => .error .formatError
              | some mac => .ok ⟨et, iv, ct, mac⟩

/-- The parse performed by `decryptRSA` (lines 223-224): only the type
digit and the first pipe segment are read. -/
def parseCipherStringRSA (cs : String) : Except PyExc (Int × Bytes) :=
  let dotParts := pySplit cs '.'
  match pyInt (dotParts.getD 0 "") with
  | none => .error .formatError
  | some et =>
    match dotParts.get? 1 with
    | none => .error .formatError
    | some seg =>
      match b64decode ((pySplit seg '|').getD 0 "") with
      | none => .error .formatError
      | some ct => .ok (et, ct)

/-! ## The decrypt functions -/

/-- AES-256-CBC decryption (key → iv → ciphertext → plaintext before
unpadding) is the external `cryptography` primitive; the pipeline is
parameterized over it. -/
abbrev AesCbc := Bytes → Bytes → Bytes → Bytes

/-- RSA-OAEP-SHA1 decryption with a DER private key (key bytes →
ciphertext → plaintext); `none` models a raised load/unpad error. -/
abbrev RsaOaep := Bytes → Bytes → Option Bytes

/-- Outcome of `decryptMasterEncryptionKey` (lines 124-158).  The
function either returns the `[stretchedmasterkey, enc, mac]` triple,
terminates the process via `exit(1)` after one of two distinct printed
messages, or lets an exception escape. -/
inductive MasterKeyResult where
  | ok (stretchedMasterKey enc mac : Bytes)
  /-- `print("ERROR: MAC did not match. ...")` + `exit(1)` (lines 137-139). -/
  | exitMacMismatch
  /-- `print("Wrong Password. ...")` + `exit(1)` in the unpadding `except` (lines 147-152). -/
  | exitWrongPassword
  | exc (e : PyExc)
deriving DecidableEq

/-- The message printed before each `exit(1)` in
`decryptMasterEncryptionKey` (source lines 138 and 151). -/
def masterUnwrapMessage : MasterKeyResult → Option String
  | .exitMacMismatch => some "ERROR: MAC did not match. Master Encryption Key was not decrypted."
  | .exitWrongPassword => some "Wrong Password. Could Not Decode Protected Symmetric Key."
  | _ => none

/-- Whether a `decryptMasterEncryptionKey` outcome terminates the run. -/
def abortsRun : MasterKeyResult → Bool
  | .ok _ _ _ => false
  | _ => true

/-- Body of `decryptMasterEncryptionKey` after the CipherString has been
pulled apart (lines 131-158).  The MAC over iv‖ciphertext is compared
first; only the unpadding statement sits in a `try`, whose `except`
prints the wrong-password message and exits. -/
def decryptMasterParsed (aes : AesCbc) (p : ParsedCS) (masterkey mastermac : Bytes) :
    MasterKeyResult :=
  let calculatedMAC := hmacSha256 mastermac (p.iv ++ p.ct)
  if p.mac ≠ calculatedMAC then .exitMacMismatch
  else if p.iv.length ≠ 16 then .exc .valueError
  else if p.ct.length % 16 ≠ 0 then .exc .valueError
  else
    match pkcs7Unpad (aes masterkey p.iv p.ct) with
    | none => .exitWrongPassword
    | some cleartext => .ok cleartext (cleartext.take 32) ((cleartext.drop 32).take 32)

def decryptMasterEncryptionKey (aes : AesCbc) (cipherString : String)
    (masterkey mastermac : Bytes) : MasterKeyResult :=
  match parseCipherString cipherString with
  | .error e => .exc e
  | .ok p => decryptMasterParsed aes p masterkey mastermac

/-- Value returned by `decryptRSAPrivateKey` (lines 161-188): `None` for
a falsy CipherString, the decrypted DER bytes, or — on MAC mismatch —
the literal error *string* of line 188, which the caller stores in place
of key bytes. -/
inductive RSAUnwrapValue where
  | noneValue
  | keyBytes (b : Bytes)
  | macErrorString
deriving DecidableEq

/-- The sentinel string returned at line 188. -/
def rsaMacErrorText : String := "ERROR: MAC did not match. RSA Private Key not decrypted."

def decryptRSAPrivateKey (aes : AesCbc) (cipherString : Option String) (key mackey : Bytes) :
    Except PyExc RSAUnwrapValue :=
  match cipherString with
  | none => .ok .noneValue
  | some s =>
    if s = "" then .ok .noneValue
    else
      match parseCipherString s with
      | .error e => .error e
      | .ok p =>
        let calculatedMAC := hmacSha256 mackey (p.iv ++ p.ct)
        if p.mac = calculatedMAC then
          if p.iv.length ≠ 16 then .error .valueError
          else if p.ct.length % 16 ≠ 0 then .error .valueError
          else
            match pkcs7Unpad (aes key p.iv p.ct) with
            | none => .error .paddingError
            | some cleartext => .ok (.keyBytes cleartext)
        else .ok .macErrorString

/-- Outcome of `decryptCipherString` (lines 192-219): `None` for a falsy
input, the UTF-8 decoded cleartext, the MAC error *string* of line 219
(returned, not raised), or an escaped exception. -/
inductive CSResult where
  | ok (s : String)
  | noneValue
  | macError
  | exc (e : PyExc)
deriving DecidableEq

/-- The sentinel string returned at line 219. -/
def csMacErrorText : String := "ERROR: MAC did not match. CipherString not decrypted."

/-- Body of `decryptCipherString` after parsing (lines 203-219). -/
def decryptParsedCS (aes : AesCbc) (p : ParsedCS) (key mackey : Bytes) : CSResult :=
  let calculatedMAC := hmacSha256 mackey (p.iv ++ p.ct)
  if p.mac = calculatedMAC then
    if p.iv.length ≠ 16 then .exc .valueError
    else if p.ct.length % 16 ≠ 0 then .exc .valueError
    else
      match pkcs7Unpad (aes key p.iv p.ct) with
      | none => .exc .paddingError
      | some cleartext =>
        match utf8Decode cleartext with
        | none => .exc .unicodeError
        | some t => .ok t
  else .macError

def decryptCipherString (aes : AesCbc) (cipherString : Option String) (key mackey : Bytes) :
    CSResult :=
  match cipherString with
  | none => .noneValue
  | some s =>
    if s = "" then .noneValue
    else
      match parseCipherString s with
      | .error e => .exc e
      | .ok p => decryptParsedCS aes p key mackey

/-- `decryptRSA` (lines 222-231): parse, then `load_der_private_key(key,
password=None)` — which raises `TypeError` unless `key` is bytes — then
OAEP decryption. -/
def decryptRSA (rsa : RsaOaep) (cipherString : String) (key : RSAUnwrapValue) :
    Except PyExc Bytes :=
  match parseCipherStringRSA cipherString with
  | .error e => .error e
  | .ok p =>
    match key with
    | .keyBytes b =>
      match rsa b p.2 with
      | some plaintext => .ok plaintext
      | none => .error .oaepError
    | .noneValue => .error .typeError
    | .macErrorString => .error .typeError

/-! ## Key Derivation Chain: getBitwardenSecrets (lines 57-120) -/

/-- The key material accumulated by `getBitwardenSecrets` (the base64
copies the source also stores are pure re-encodings and are omitted). -/
structure BWSecrets where
  masterKey : Bytes
  masterPasswordHash : Bytes
  stretchedEncryptionKey : Bytes
  stretchedMacKey : Bytes
  generatedSymmetricKey : Bytes
  generatedEncryptionKey : Bytes
  generatedMACKey : Bytes
  rsaPrivateKey : RSAUnwrapValue
deriving DecidableEq

/-- How a pipeline run terminates abnormally: one of the two explicit
`exit(1)` calls in `decryptMasterEncryptionKey`, or an uncaught
exception (which also terminates CPython with a non-zero status). -/
inductive RunError where
  | exitMacMismatch
  | exitWrongPassword
  | exc (e : PyExc)
deriving DecidableEq

def getBitwardenSecrets (aes : AesCbc) (email : String) (password : Bytes)
    (kdfIterations : Nat) (encKey : String) (encPrivateKey : Option String) :
    Except RunError BWSecrets :=
  let masterKey := pbkdf2Sha256 password (utf8Encode email) kdfIterations
  let masterPasswordHash := pbkdf2Sha256 masterKey password 1
  let stretchedEnc := hkdfExpand32 masterKey (utf8Encode "enc")
  let stretchedMac := hkdfExpand32 masterKey (utf8Encode "mac")
  match decryptMasterEncryptionKey aes encKey stretchedEnc stretchedMac with
  | .exc e => .error (.exc e)
  | .exitMacMismatch => .error .exitMacMismatch
  | .exitWrongPassword => .error .exitWrongPassword
  | .ok sym enc mac =>
    match decryptRSAPrivateKey aes encPrivateKey enc mac with
    | .error e => .error (.exc e)
    | .ok slot =>
      .ok ⟨masterKey, masterPasswordHash, stretchedEnc, stretchedMac, sym, enc, mac, slot⟩

/-- The organization-key loop of `decryptBitwardenJSON` (lines 254-258):
every entry of `encOrgKeys` is RSA-decrypted with whatever value the
`RSAPrivateKey` slot holds. -/
def deriveOrgSecrets (rsa : RsaOaep) (encOrgKeys : List (String × String))
    (key : RSAUnwrapValue) : Except PyExc (List (String × Bytes)) :=
  match encOrgKeys with
  | [] => .ok []
  | (i, cs) :: rest =>
    match decryptRSA rsa cs key with
    | .error e => .error e
    | .ok b =>
      match deriveOrgSecrets rsa rest key with
      | .error e => .error e
      | .ok tail => .ok ((i, b) :: tail)

/-! ## JSON values and Python json.dumps -/

/-- Untyped JSON values as produced by `json.load` (numbers restricted
to integers, which is all a Bitwarden export contains). -/
inductive JVal where
  | null
  | bool (b : Bool)
  | num (n : Int)
  | str (s : String)
  | arr (xs : List JVal)
  | obj (fs : List (String × JVal))

def lbraceChar : Char := Char.ofNat 123

def rbraceChar : Char := Char.ofNat 125

def hexDigitChar (n : Nat) : Char :=
  if n < 10 then Char.ofNat (48 + n) else Char.ofNat (97 + n - 10)

def uEscape (n : Nat) : List Char :=
  ['\\', 'u', hexDigitChar (n / 4096 % 16), hexDigitChar (n / 256 % 16),
   hexDigitChar (n / 16 % 16), hexDigitChar (n % 16)]

/-- How `json.dumps` / `json.JSONEncoder().encode` (defaults:
`ensure_ascii=True`) writes one character of a string. -/
def pyEscapeChar (c : Char) : List Char :=
  let n := c.toNat
  if c = '"' then ['\\', '"']
  else if c = '\\' then ['\\', '\\']
  else if n = 10 then ['\\', 'n']
  else if n = 9 then ['\\', 't']
  else if n = 13 then ['\\', 'r']
  else if n = 8 then ['\\', 'b']
  else if n = 12 then ['\\', 'f']
  else if n < 32 then uEscape n
  else if n < 127 then [c]
  else if n < 65536 then uEscape n
  else uEscape (55296 + (n - 65536) / 1024) ++ uEscape (56320 + (n - 65536) % 1024)

def pyEscapeString (s : String) : String := String.mk (s.data.flatMap pyEscapeChar)

mutual

/-- `json.dumps` with the default separators `", "` and `": "`, exactly
as called at line 288 (`json.dumps(c)`). -/
def pyDumps : JVal → String
  | .null => "null"
  | .bool true => "true"
  | .bool false => "false"
  | .num n => toString n
  | .str s => "\"" ++ pyEscapeString s ++ "\""
  | .arr xs => "[" ++ pyDumpsList xs ++ "]"
  | .obj fs => String.mk [lbraceChar] ++ pyDumpsFields fs ++ String.mk [rbraceChar]

def pyDumpsList : List JVal → String
  | [] => ""
  | [x] => pyDumps x
  | x :: y :: rest => pyDumps x ++ ", " ++ pyDumpsList (y :: rest)

def pyDumpsFields : List (String × JVal) → String
  | [] => ""
  | [(k, v)] => "\"" ++ pyEscapeString k ++ "\": " ++ pyDumps v
  | (k, v) :: y :: rest =>
    "\"" ++ pyEscapeString k ++ "\": " ++ pyDumps v ++ ", " ++ pyDumpsFields (y :: rest)

end

/-! ## The regex scan (line 261: `re.compile(r"\d\.[^,]+\|[^,]+=+")`)

A small backtracking matcher for patterns built from single-character
classes and greedy `+` quantifiers, with Python semantics: leftmost
match, each `+` tries the longest repetition first and gives characters
back one at a time. -/

inductive RxItem where
  | one (p : Char → Bool)
  | many1 (p : Char → Bool)

/-- Try repetition lengths `k, k-1, ..., 1` for a greedy `+`, running
the continuation `f` on the rest of the input. -/
def rxTryLen (f : List Char → Option Nat) (cs : List Char) : Nat → Option Nat
  | 0 => none
  | k + 1 =>
    match f (cs.drop (k + 1)) with
    | some n => some (k + 1 + n)
    | none => rxTryLen f cs k

/-- Length of the match of an item sequence at the head of the input
(`none` when there is no match at this position). -/
def matchItems : List RxItem → List Char → Option Nat
  | [], _ => some 0
  | .one _ :: _, [] => none
  | .one p :: rest, c :: cs => if p c then (matchItems rest cs).map (fun n => n + 1) else none
  | .many1 p :: rest, cs => rxTryLen (matchItems rest) cs (cs.takeWhile p).length

def findallGo (pat : List RxItem) : Nat → List Char → List (List Char)
  | 0, _ => []
  | _, [] => []
  | fuel + 1, c :: cs =>
    match matchItems pat (c :: cs) with
    | some (n + 1) => (c :: cs).take (n + 1) :: findallGo pat fuel ((c :: cs).drop (n + 1))
    | some 0 => findallGo pat fuel cs
    | none => findallGo pat fuel cs

/-- `re.findall`: non-overlapping leftmost matches, scanning left to
right (the pattern used here can never match the empty string). -/
def findall (pat : List RxItem) (s : String) : List String :=
  (findallGo pat s.data.length s.data).map String.mk

def isDigitC (c : Char) : Bool := isAsciiDigit c

def nonComma (c : Char) : Bool := !(c = ',')

def isPipeC (c : Char) : Bool := c = '|'

def isDotC (c : Char) : Bool := c = '.'

def isEqC (c : Char) : Bool := c = '='

/-- The compiled pattern `\d\.[^,]+\|[^,]+=+` (with `\d` restricted to
ASCII digits; the claims only involve ASCII data). -/
def cipherStringRegex : List RxItem :=
  [.one isDigitC, .one isDotC, .many1 nonComma, .one isPipeC, .many1 nonComma, .many1 isEqC]

/-! ## Python str.replace -/

def replaceAllGo (pat repl : List Char) : Nat → List Char → List Char
  | 0, s => s
  | _, [] => []
  | fuel + 1, c :: cs =>
    if pat.isPrefixOf (c :: cs) then repl ++ replaceAllGo pat repl fuel ((c :: cs).drop pat.length)
    else c :: replaceAllGo pat repl fuel cs

/-- Python `str.replace(pat, repl)`: replace every non-overlapping
occurrence, scanning left to right (never called with an empty pattern
by the source). -/
def pyReplace (s pat repl : String) : String :=
  match pat.data with
  | [] => s
  | _ :: _ => String.mk (replaceAllGo pat.data repl.data s.data.length s.data)

/-! ## Vault Walker (decryptBitwardenJSON, lines 261-311) -/

/-- Python dict lookup on an association list (JSON object keys are unique). -/
def alookup {α : Type} : List (String × α) → String → Option α
  | [], _ => none
  | (k, v) :: rest, key => if k = key then some v else alookup rest key

/-- Python `len` on a JSON value; `none` models the `TypeError` raised
for `None`, numbers and booleans. -/
def pyLen : JVal → Option Nat
  | .str s => some s.length
  | .arr xs => some xs.length
  | .obj fs => some fs.length
  | _ => none

/-- State of the `encKey`/`macKey` local variables of
`decryptBitwardenJSON`.  They are plain Python locals assigned inside
the per-record loop (lines 290-296), so their values persist from one
record — and one group — to the next. -/
inductive KeyState where
  | unassigned
  | assigned (encKey macKey : Bytes)
deriving DecidableEq

/-- The key-selection step for one record (lines 290-296):
`try: if len(record["organizationId"]) > 0: use org keys / except: use
user keys`.  A missing key, `len` failure, or failed org lookup raises
inside the `try` and falls back to the user keys; an *empty*
`organizationId` makes the condition false, so nothing is assigned and
the previous state survives. -/
def selectKeys (orgSecrets : List (String × Bytes)) (genEnc genMac : Bytes)
    (st : KeyState) (record : List (String × JVal)) : KeyState :=
  match alookup record "organizationId" with
  | none => .assigned genEnc genMac
  | some v =>
    match pyLen v with
    | none => .assigned genEnc genMac
    | some 0 => st
    | some (_ + 1) =>
      match v with
      | .str oid =>
        match alookup orgSecrets oid with
        | some k => .assigned (k.take 32) ((k.drop 32).take 32)
        | none => .assigned genEnc genMac
      | _ => .assigned genEnc genMac

/-- `json.JSONEncoder().encode(value)` with the first and last character
stripped (lines 299-300), applied to the value `decryptCipherString`
returned.  A returned error *string* is spliced like any cleartext; a
raised exception propagates. -/
def spliceText : CSResult → Except PyExc String
  | .ok s => .ok (pyEscapeString s)
  | .macError => .ok (pyEscapeString csMacErrorText)
  | .noneValue => .ok "ul"
  | .exc e => .error e

/-- The `"userId": "<userId>",` text removed at lines 303-305. -/
def userIdRemovalText (userId : String) : String :=
  "\"userId\": \"" ++ userId ++ "\","

/-- The match-processing loop (lines 298-305): for each regex match of
the *original* record text, decrypt it, splice the JSON-escaped result
over every occurrence of the match, then delete every occurrence of the
userId key/value text.  Note the userId removal only runs inside this
loop. -/
def rewriteMatches (aes : AesCbc) (encKey macKey : Bytes) (userIdText : String) :
    List String → String → Except PyExc String
  | [], s => .ok s
  | m :: ms, s =>
    match spliceText (decryptCipherString aes (some m) encKey macKey) with
    | .error e => .error e
    | .ok esc =>
      rewriteMatches aes encKey macKey userIdText ms
        (pyReplace (pyReplace s m esc) userIdText "")

/-- Processing of one record (lines 287-307): serialize it, run the key
selection, then rewrite each regex match.  If the key variables have
never been assigned and at least one match exists, line 299 raises
`NameError`.  The produced string is handed to `json.loads` and
appended to the group list; the state of the key locals carries over. -/
def processRecord (aes : AesCbc) (orgSecrets : List (String × Bytes)) (genEnc genMac : Bytes)
    (userId : String) (st : KeyState) (record : List (String × JVal)) :
    Except PyExc (String × KeyState) :=
  let tempString := pyDumps (.obj record)
  let st2 := selectKeys orgSecrets genEnc genMac st record
  let ms := findall cipherStringRegex tempString
  match st2 with
  | .unassigned =>
    match ms with
    | [] => .ok (tempString, .unassigned)
    | _ :: _ => .error .nameError
  | .assigned ek mk2 =>
    match rewriteMatches aes ek mk2 (userIdRemovalText userId) ms tempString with
    | .error e => .error e
    | .ok out => .ok (out, st2)

def processRecords (aes : AesCbc) (orgSecrets : List (String × Bytes)) (genEnc genMac : Bytes)
    (userId : String) : KeyState → List (List (String × JVal)) →
    Except PyExc (List String × KeyState)
  | st, [] => .ok ([], st)
  | st, r :: rs =>
    match processRecord aes orgSecrets genEnc genMac userId st r with
    | .error e => .error e
    | .ok (s, st2) =>
      match processRecords aes orgSecrets genEnc genMac userId st2 rs with
      | .error e => .error e
      | .ok (ss, st3) => .ok ((s :: ss), st3)

def asRecord : JVal → Option (List (String × JVal))
  | .obj fs => some fs
  | _ => none

/-- Record enumeration for one group (lines 281-287): `for b in
groupData.items()` yields `(key, value)` pairs, the JSON round-trip
turns each pair into the two-element list `[key, value]`, `for c in
groupEntries` visits both, and only elements that are dicts are kept.
There is no recursion into nested containers. -/
def enumerateRecords (gv : List (String × JVal)) : List (List (String × JVal)) :=
  (gv.flatMap (fun kv => [JVal.str kv.1, kv.2])).filterMap asRecord

/-- Group-name resolution (lines 265-274). -/
def resolveGroup (key : String) : Option String :=
  if "folders_".data.isPrefixOf key.data then some "folders"
  else if "ciphers_".data.isPrefixOf key.data then some "items"
  else if "organizations_".data.isPrefixOf key.data then some "organizations"
  else if "collections_".data.isPrefixOf key.data then some "collections"
  else none

/-- `decryptedEntries[group] = groupItemsList`: Python dict assignment
(an existing key keeps its insertion position and is overwritten). -/
def setGroup (out : List (String × List String)) (g : String) (items : List String) :
    List (String × List String) :=
  match out with
  | [] => [(g, items)]
  | (k, v) :: rest => if k = g then (k, items) :: rest else (k, v) :: setGroup rest g items

/-- The walk over the top-level keys of the export (lines 263-309),
threading the `encKey`/`macKey` locals through every record of every
group in iteration order.  A recognized group whose value is not a dict
raises `AttributeError` at `.items()`. -/
def walkGroups (aes : AesCbc) (orgSecrets : List (String × Bytes)) (genEnc genMac : Bytes)
    (userId : String) : KeyState → List (String × List String) → List (String × JVal) →
    Except PyExc (List (String × List String))
  | _, acc, [] => .ok acc
  | st, acc, (key, v) :: rest =>
    match resolveGroup key with
    | none => walkGroups aes orgSecrets genEnc genMac userId st acc rest
    | some g =>
      match v with
      | .obj gv =>
        match processRecords aes orgSecrets genEnc genMac userId st (enumerateRecords gv) with
        | .error e => .error e
        | .ok (items, st2) =>
          walkGroups aes orgSecrets genEnc genMac userId st2 (setGroup acc g items) rest
      | _ => .error .attributeError

/-- The fields of the export document that the pipeline reads
(`datafile[...]` accesses at lines 245-305); `encPrivateKey = none`
models a JSON `null` value.  Remaining top-level keys are carried in
`groups` in document order. -/
structure ExportDoc where
  userEmail : String
  kdfIterations : Nat
  encKey : String
  encPrivateKey : Option String
  encOrgKeys : List (String × String)
  userId : String
  groups : List (String × JVal)

/-- The decryption pipeline of `decryptBitwardenJSON` (lines 234-311)
from the parsed document and password to the decrypted entries, with
file reading and final pretty-printing at the excluded I/O boundary.
Each emitted record is represented by the rewritten JSON text handed to
`json.loads` at line 307. -/
def decryptBitwardenJSON (aes : AesCbc) (rsa : RsaOaep) (doc : ExportDoc) (password : Bytes) :
    Except RunError (List (String × List String)) :=
  match getBitwardenSecrets aes doc.userEmail password doc.kdfIterations doc.encKey
      doc.encPrivateKey with
  | .error e => .error e
  | .ok secrets =>
    match deriveOrgSecrets rsa doc.encOrgKeys secrets.rsaPrivateKey with
    | .error e => .error (.exc e)
    | .ok orgSecrets =>
      match walkGroups aes orgSecrets secrets.generatedEncryptionKey secrets.generatedMACKey
          doc.userId .unassigned [] doc.groups with
      | .error e => .error (.exc e)
      | .ok out => .ok out

/-! ## Spec-side definitions used only for comparison with the source -/

mutual

/-- Written from the words of claim C9 ("every JSON object (record)
nested at any depth within that group value"): all object nodes of a
JSON value, at any depth. -/
def specNestedRecords : JVal → List (List (String × JVal))
  | .obj fs => fs :: specNestedRecordsFields fs
  | .arr xs => specNestedRecordsList xs
  | _ => []

def specNestedRecordsList : List JVal → List (List (String × JVal))
  | [] => []
  | x :: xs => specNestedRecords x ++ specNestedRecordsList xs

def specNestedRecordsFields : List (String × JVal) → List (List (String × JVal))
  | [] => []
  | (_, v) :: fs => specNestedRecords v ++ specNestedRecordsFields fs

end

/-- Substring test (used to state that emitted text still contains the
userId key/value pair). -/
def containsSub (s sub : String) : Bool :=
  (List.range (s.data.length + 1)).any (fun i => sub.data.isPrefixOf (s.data.drop i))

/-- Classification of `decryptCipherString` outcomes by what the walker
does with them: a returned value (cleartext, `None`, or the MAC error
string) is spliced inline, while a raised exception escapes the loop. -/
def inlineOutcome : CSResult → Bool
  | .exc _ => false
  | _ => true

/-! ## Concrete instances used by witnesses and counterexamples -/

/-- A concrete stand-in for the abstract AES-CBC parameter (the
cipher-independent theorems hold for every `AesCbc`; witnesses
instantiate it so the kernel can evaluate). -/
def aes0 : AesCbc := fun _ _ ct => ct

/-- A concrete stand-in for the abstract RSA-OAEP parameter. -/
def rsa0 : RsaOaep := fun _ _ => none

def k0 : Bytes := List.replicate 32 3

def m0 : Bytes := List.replicate 32 5

def wEmail : String := "user@example.com"

def wPassword : Bytes := utf8Encode "p4ssw0rd"

def wMasterKey : Bytes := pbkdf2Sha256 wPassword (utf8Encode wEmail) 1

def wStretchedEnc : Bytes := hkdfExpand32 wMasterKey (utf8Encode "enc")

def wStretchedMac : Bytes := hkdfExpand32 wMasterKey (utf8Encode "mac")

/-- The 64-byte symmetric key material wrapped inside `wEncKey`. -/
def wKeyMaterial : Bytes := List.range 64

def wGenEnc : Bytes := wKeyMaterial.take 32

def wGenMac : Bytes := (wKeyMaterial.drop 32).take 32

def wIv : Bytes := List.replicate 16 0

def wCt : Bytes := wKeyMaterial ++ List.replicate 16 16

/-- A well-formed protected symmetric key for `wEmail`/`wPassword` with
1 KDF iteration: the segments are the base64 encodings of `wIv`, `wCt`
and `hmacSha256 wStretchedMac (wIv ++ wCt)`, so its MAC verifies under
the derived stretched MAC key and under `aes0` its ciphertext unpads to
`wKeyMaterial` (proved by `masterUnwrapOnW` below). -/
def wEncKey : String :=
  "2.AAAAAAAAAAAAAAAAAAAAAA==|AAECAwQFBgcICQoLDA0ODxAREhMUFRYXGBkaGxwdHh8gISIjJCUmJygpKissLS4vMDEyMzQ1Njc4OTo7PD0+PxAQEBAQEBAQEBAQEBAQEBA=|x+K7T/NLX/iiErze/pQT/Q1uF2+o2WTOmFaNH/hB0HE="

/-- A syntactically well-formed symmetric CipherString whose 3-byte
`mac` segment can never equal a 32-byte HMAC-SHA256 digest. -/
def c1BadKey : String := "2.AAAAAAAAAAAAAAAAAAAAAA==|AAAAAAAAAAAAAAAAAAAAAA==|AAAA"

def c2wCS : String := "2." ++ b64encode wIv ++ "|" ++ b64encode (List.replicate 16 2) ++ "|AAAA"

def c3OrgKey : Bytes := List.range 64

def c3OrgSecrets : List (String × Bytes) := [("org1", c3OrgKey)]

def c3Gen : Bytes := List.replicate 32 7

def c3GenMac : Bytes := List.replicate 32 9

def c3Record1 : List (String × JVal) := [("organizationId", .str "org1")]

def c3Record2 : List (String × JVal) := [("organizationId", .str "")]

/-- Export whose protected RSA private key has an unverifiable MAC and
whose `encOrgKeys` is non-empty. -/
def c4Doc : ExportDoc := ⟨wEmail, 1, wEncKey, some c1BadKey, [("org1", "4.AAAA")], "u1", []⟩

/-- The key bundle `getBitwardenSecrets` returns for the
`wEmail`/`wPassword`/`wEncKey` export with a null `encPrivateKey`. -/
def wSecretsNone : BWSecrets :=
  ⟨wMasterKey, pbkdf2Sha256 wMasterKey wPassword 1, wStretchedEnc, wStretchedMac,
   wKeyMaterial, wGenEnc, wGenMac, .noneValue⟩

/-- The key bundle `getBitwardenSecrets` returns for `c4Doc`: every slot
filled with derived bytes except `rsaPrivateKey`, which holds the MAC
error sentinel. -/
def wSecretsBadRSA : BWSecrets :=
  ⟨wMasterKey, pbkdf2Sha256 wMasterKey wPassword 1, wStretchedEnc, wStretchedMac,
   wKeyMaterial, wGenEnc, wGenMac, .macErrorString⟩

/-- A record whose `name` field matches the CipherString regex but has
only two pipe segments, so `decryptCipherString` raises while parsing it. -/
def c5Record : List (String × JVal) := [("userId", .str "u1"), ("name", .str "0.xx|yy==")]

def c5Doc : ExportDoc :=
  ⟨wEmail, 1, wEncKey, none, [], "u1", [("folders_x", .obj [("k", .obj c5Record)])]⟩

/-- A record carrying a userId field and no CipherString-shaped text. -/
def c6Record : List (String × JVal) := [("userId", .str "u1"), ("name", .str "plain")]

/-- Export with a non-empty `encOrgKeys` but no RSA private key
(`encPrivateKey` is null). -/
def c7Doc : ExportDoc :=
  ⟨wEmail, 1, wEncKey, none, [("org1", "4.AAAA")], "u1", [("folders_x", .obj [])]⟩

def c8Malformed : String := "2.####|####|####"

def c9InnerRecord : List (String × JVal) := [("name", .str "plain")]

/-- A group value whose only record sits inside a list, one container
level below the group mapping. -/
def c9GroupValue : List (String × JVal) := [("k", .arr [.obj c9InnerRecord])]

def c9Doc : ExportDoc :=
  ⟨wEmail, 1, wEncKey, none, [], "u1", [("folders_x", .obj c9GroupValue)]⟩

/-! ## Shared lemmas -/

/-- Every error `parseCipherString` can produce is the parse-stage
exception: the function raises before any MAC or cipher work. -/
theorem parseCipherString_error_is_format {cs : String} {e : PyExc}
    (h : parseCipherString cs = .error e) : e = .formatError := by
  simp only [parseCipherString] at h
  iterate 7 all_goals (try split at h)
  all_goals simp_all

/-- Reduction of `decryptCipherString` on a non-empty input whose parse
succeeds. -/
theorem decryptCipherString_parsed (aes : AesCbc) {cs : String} {p : ParsedCS}
    (key mackey : Bytes) (hne : cs ≠ "") (hp : parseCipherString cs = .ok p) :
    decryptCipherString aes (some cs) key mackey = decryptParsedCS aes p key mackey := by
  simp only [decryptCipherString]
  rw [if_neg hne, hp]

/-- Reduction of `decryptMasterEncryptionKey` on input whose parse succeeds. -/
theorem decryptMasterEncryptionKey_parsed (aes : AesCbc) {cs : String} {p : ParsedCS}
    (mkey mmac : Bytes) (hp : parseCipherString cs = .ok p) :
    decryptMasterEncryptionKey aes cs mkey mmac = decryptMasterParsed aes p mkey mmac := by
  unfold decryptMasterEncryptionKey
  rw [hp]

/-- Reduction of the key-derivation chain given the outcomes of its two
unwrap steps. -/
theorem getBitwardenSecrets_eq (aes : AesCbc) (email : String) (password : Bytes)
    (iters : Nat) (encKey : String) (encPrivateKey : Option String)
    (sym enc mac : Bytes) (slot : RSAUnwrapValue)
    (h1 : decryptMasterEncryptionKey aes encKey
        (hkdfExpand32 (pbkdf2Sha256 password (utf8Encode email) iters) (utf8Encode "enc"))
        (hkdfExpand32 (pbkdf2Sha256 password (utf8Encode email) iters) (utf8Encode "mac")) =
        .ok sym enc mac)
    (h2 : decryptRSAPrivateKey aes encPrivateKey enc mac = .ok slot) :
    getBitwardenSecrets aes email password iters encKey encPrivateKey =
      .ok ⟨pbkdf2Sha256 password (utf8Encode email) iters,
           pbkdf2Sha256 (pbkdf2Sha256 password (utf8Encode email) iters) password 1,
           hkdfExpand32 (pbkdf2Sha256 password (utf8Encode email) iters) (utf8Encode "enc"),
           hkdfExpand32 (pbkdf2Sha256 password (utf8Encode email) iters) (utf8Encode "mac"),
           sym, enc, mac, slot⟩ := by
  simp only [getBitwardenSecrets, h1, h2]

/-- Byte value of `wMasterKey` (each stage of the witness KDF chain is
evaluated once, on literal inputs, to keep kernel checking cheap). -/
def wMasterKeyLit : Bytes :=
  [31, 51, 136, 23, 28, 124, 251, 23, 168, 167, 132, 88, 177, 95, 225, 44,
   147, 68, 101, 213, 10, 132, 141, 1, 81, 209, 39, 150, 94, 104, 165, 204]

/-- Byte value of `wStretchedEnc`. -/
def wStretchedEncLit : Bytes :=
  [82, 28, 66, 221, 36, 140, 202, 205, 156, 194, 128, 31, 242, 34, 24, 154,
   204, 83, 178, 37, 140, 127, 235, 190, 188, 64, 100, 194, 159, 34, 227, 233]

/-- Byte value of `wStretchedMac`. -/
def wStretchedMacLit : Bytes :=
  [6, 27, 207, 245, 22, 21, 153, 255, 172, 244, 47, 40, 172, 248, 72, 127,
   188, 83, 143, 137, 151, 42, 142, 116, 203, 15, 117, 235, 50, 223, 171, 21]

theorem wMasterKey_eval : pbkdf2Sha256 wPassword (utf8Encode wEmail) 1 = wMasterKeyLit := by
  decide

theorem wStretchedEnc_eval : hkdfExpand32 wMasterKeyLit (utf8Encode "enc") = wStretchedEncLit := by
  decide

theorem wStretchedMac_eval : hkdfExpand32 wMasterKeyLit (utf8Encode "mac") = wStretchedMacLit := by
  decide

/-- One evaluation of the master-key unwrap on the concrete witness
export (performed on the literal stretched keys so that no KDF stage is
re-evaluated). -/
theorem masterUnwrapOnW :
    decryptMasterEncryptionKey aes0 wEncKey
      (hkdfExpand32 (pbkdf2Sha256 wPassword (utf8Encode wEmail) 1) (utf8Encode "enc"))
      (hkdfExpand32 (pbkdf2Sha256 wPassword (utf8Encode wEmail) 1) (utf8Encode "mac")) =
      .ok wKeyMaterial wGenEnc wGenMac := by
  rw [wMasterKey_eval, wStretchedEnc_eval, wStretchedMac_eval]
  decide

/-- The RSA private-key unwrap on `c1BadKey` under the witness content
keys returns the sentinel string. -/
theorem rsaUnwrapBadOnW :
    decryptRSAPrivateKey aes0 (some c1BadKey) wGenEnc wGenMac = .ok .macErrorString := rfl

/-- The key-derivation chain on the witness export with a null
`encPrivateKey`. -/
theorem getBitwardenSecretsW_none :
    getBitwardenSecrets aes0 wEmail wPassword 1 wEncKey none = .ok wSecretsNone :=
  getBitwardenSecrets_eq aes0 wEmail wPassword 1 wEncKey none wKeyMaterial wGenEnc wGenMac
    .noneValue masterUnwrapOnW rfl

/-- The key-derivation chain on the witness export whose protected RSA
private key fails its MAC check. -/
theorem getBitwardenSecretsW_bad :
    getBitwardenSecrets aes0 wEmail wPassword 1 wEncKey (some c1BadKey) = .ok wSecretsBadRSA :=
  getBitwardenSecrets_eq aes0 wEmail wPassword 1 wEncKey (some c1BadKey) wKeyMaterial wGenEnc
    wGenMac .macErrorString masterUnwrapOnW rsaUnwrapBadOnW

/-- Reduction of the whole pipeline once the key-derivation chain has
produced its bundle: what remains is the organization-key loop followed
by the vault walker. -/
theorem decryptBitwardenJSON_reduce (aes : AesCbc) (rsa : RsaOaep) (doc : ExportDoc)
    (password : Bytes) (s : BWSecrets)
    (h1 : getBitwardenSecrets aes doc.userEmail password doc.kdfIterations doc.encKey
        doc.encPrivateKey = .ok s) :
    decryptBitwardenJSON aes rsa doc password =
      (match deriveOrgSecrets rsa doc.encOrgKeys s.rsaPrivateKey with
       | .error e => .error (.exc e)
       | .ok orgSecrets =>
         match walkGroups aes orgSecrets s.generatedEncryptionKey s.generatedMACKey
             doc.userId .unassigned [] doc.groups with
         | .error e => .error (.exc e)
         | .ok out => .ok out) := by
  unfold decryptBitwardenJSON
  rw [h1]

/-! ## Claim C1 -/

/-- C1 counterexample: on an export whose master symmetric-key unwrap
fails by MAC mismatch, the pipeline terminates through the MAC-mismatch
branch, whose printed message differs from the wrong-password message of
the padding branch — so the two failures are distinguishable to the end
user, contrary to the claim that a single wrong-password outcome is
reported. -/
theorem C1_counterexample :
    decryptMasterEncryptionKey aes0 c1BadKey k0 m0 = .exitMacMismatch ∧
    abortsRun .exitMacMismatch = true ∧
    masterUnwrapMessage .exitMacMismatch ≠ masterUnwrapMessage .exitWrongPassword := by
  exact ⟨by decide, rfl, by decide⟩

/-- C1 (amended): whenever the master symmetric-key unwrap fails, the
whole pipeline aborts — `exit(1)` in both cases — but the MAC-mismatch
and padding failures print distinct messages, and only the padding
failure is described to the user as a wrong password. -/
theorem C1_masterUnwrapAbortsWithDistinctMessages (aes : AesCbc) (cs : String)
    (mkey mmac : Bytes) (p : ParsedCS) (hp : parseCipherString cs = .ok p) :
    (p.mac ≠ hmacSha256 mmac (p.iv ++ p.ct) →
       decryptMasterEncryptionKey aes cs mkey mmac = .exitMacMismatch) ∧
    (p.mac = hmacSha256 mmac (p.iv ++ p.ct) → p.iv.length = 16 → p.ct.length % 16 = 0 →
       pkcs7Unpad (aes mkey p.iv p.ct) = none →
       decryptMasterEncryptionKey aes cs mkey mmac = .exitWrongPassword) ∧
    abortsRun .exitMacMismatch = true ∧ abortsRun .exitWrongPassword = true ∧
    masterUnwrapMessage .exitMacMismatch ≠ masterUnwrapMessage .exitWrongPassword := by
  rw [decryptMasterEncryptionKey_parsed aes mkey mmac hp]
  refine ⟨?_, ?_, rfl, rfl, by decide⟩
  · intro hmac
    simp only [decryptMasterParsed]
    rw [if_pos hmac]
  · intro heq h16 hmod hpad
    simp only [decryptMasterParsed]
    rw [if_neg (not_not_intro heq), if_neg (not_not_intro h16), if_neg (not_not_intro hmod),
      hpad]

/-- C1 witness: the amended theorem applied to a concrete mismatching
export. -/
theorem C1_masterUnwrapAbortsWithDistinctMessages_witness :
    decryptMasterEncryptionKey aes0 c1BadKey k0 m0 = .exitMacMismatch ∧ abortsRun .exitMacMismatch = true :=
  ⟨(C1_masterUnwrapAbortsWithDistinctMessages aes0 c1BadKey k0 m0
    ⟨2, List.replicate 16 0, List.replicate 16 0, [0, 0, 0]⟩ (by rfl)).1 (by decide),
   (C1_masterUnwrapAbortsWithDistinctMessages aes0 c1BadKey k0 m0
    ⟨2, List.replicate 16 0, List.replicate 16 0, [0, 0, 0]⟩ (by rfl)).2.2.1⟩

/-! ## Claim C2 -/

/-- C2: symmetric CipherString decryption computes HMAC-SHA256 over
iv‖ciphertext under the MAC key first; on mismatch it yields the
MAC-mismatch outcome for *every* cipher function (so no AES work can
influence the result); on match the outcome is the AES-CBC decryption
followed by PKCS#7 unpadding, a padding failure surfacing as the
padding exception (and valid plaintext being returned UTF-8-decoded). -/
theorem C2_symmetricDecryptionStructure (aes : AesCbc) (cs : String) (key mackey : Bytes)
    (p : ParsedCS) (hp : parseCipherString cs = .ok p) :
    (p.mac ≠ hmacSha256 mackey (p.iv ++ p.ct) →
       ∀ aes2 : AesCbc, decryptCipherString aes2 (some cs) key mackey = .macError) ∧
    (p.mac = hmacSha256 mackey (p.iv ++ p.ct) → p.iv.length = 16 → p.ct.length % 16 = 0 →
       (pkcs7Unpad (aes key p.iv p.ct) = none →
          decryptCipherString aes (some cs) key mackey = .exc .paddingError) ∧
       (∀ clear, pkcs7Unpad (aes key p.iv p.ct) = some clear →
          decryptCipherString aes (some cs) key mackey =
            (match utf8Decode clear with
             | none => .exc .unicodeError
             | some t => .ok t))) := by
  have hne : cs ≠ "" := by
    intro hE
    subst hE
    rw [show parseCipherString "" = Except.error PyExc.formatError from rfl] at hp
    cases hp
  constructor
  · intro hmac aes2
    rw [decryptCipherString_parsed aes2 key mackey hne hp]
    simp only [decryptParsedCS]
    rw [if_neg hmac]
  · intro heq h16 hmod
    constructor
    · intro hpad
      rw [decryptCipherString_parsed aes key mackey hne hp]
      simp only [decryptParsedCS]
      rw [if_pos heq, if_neg (not_not_intro h16), if_neg (not_not_intro hmod), hpad]
    · intro clear hpad
      rw [decryptCipherString_parsed aes key mackey hne hp]
      simp only [decryptParsedCS]
      rw [if_pos heq, if_neg (not_not_intro h16), if_neg (not_not_intro hmod), hpad]

/-- C2 witness: the theorem applied to a concrete CipherString whose
3-byte mac cannot match the computed HMAC. -/
theorem C2_symmetricDecryptionStructure_witness :
    decryptCipherString aes0 (some c2wCS) k0 m0 = .macError :=
  (C2_symmetricDecryptionStructure aes0 c2wCS k0 m0
    ⟨2, wIv, List.replicate 16 2, [0, 0, 0]⟩ (by rfl)).1 (by decide) aes0

/-! ## Claim C3 -/

/-- C3 (code bug): a record with an *empty* `organizationId` does not
fall back to the user's content keys.  The `len(...) > 0` test is false,
so neither the `try` body nor the `except` handler assigns anything and
the `encKey`/`macKey` locals keep whatever the previous record set: here
the second record is decrypted with the first record's organization key
pair, not the user pair the claim requires. -/
theorem C3_staleKeysOnEmptyOrganizationId :
    selectKeys c3OrgSecrets c3Gen c3GenMac
        (selectKeys c3OrgSecrets c3Gen c3GenMac .unassigned c3Record1) c3Record2 =
      .assigned (c3OrgKey.take 32) ((c3OrgKey.drop 32).take 32) ∧
    selectKeys c3OrgSecrets c3Gen c3GenMac
        (selectKeys c3OrgSecrets c3Gen c3GenMac .unassigned c3Record1) c3Record2 ≠
      .assigned c3Gen c3GenMac ∧
    selectKeys c3OrgSecrets c3Gen c3GenMac .unassigned c3Record2 = .unassigned := by
  exact ⟨rfl, by decide, rfl⟩

/-! ## Claim C4 -/

/-- C4 (code bug): when the protected RSA private key's MAC check fails,
`decryptRSAPrivateKey` returns the sentinel *string* of line 188, the
chain stores it in the `RSAPrivateKey` slot, and the organization-key
loop then hands that string to `load_der_private_key` as key material —
raising `TypeError` and aborting the whole run as soon as `encOrgKeys`
is non-empty, contrary to the claim that the failure result is never
used as RSA key material and that the run survives. -/
theorem C4_rsaSentinelStringUsedAsKeyMaterial :
    getBitwardenSecrets aes0 wEmail wPassword 1 wEncKey (some c1BadKey) = .ok wSecretsBadRSA ∧
    wSecretsBadRSA.rsaPrivateKey = .macErrorString ∧
    decryptRSA rsa0 "4.AAAA" .macErrorString = .error .typeError ∧
    decryptBitwardenJSON aes0 rsa0 c4Doc wPassword = .error (.exc .typeError) := by
  refine ⟨getBitwardenSecretsW_bad, rfl, rfl, ?_⟩
  rw [decryptBitwardenJSON_reduce aes0 rsa0 c4Doc wPassword wSecretsBadRSA
    getBitwardenSecretsW_bad]
  rfl

/-! ## Claim C5 -/

/-- C5 counterexample: a record field that matches the CipherString
regex but is malformed (two pipe segments only) makes
`decryptCipherString` raise while parsing; nothing catches the
exception, so the record — and the whole run — aborts instead of the
failure being reported inline. -/
theorem C5_counterexample :
    processRecord aes0 [] c3Gen c3GenMac "u1" .unassigned c5Record = .error .formatError ∧
    decryptBitwardenJSON aes0 rsa0 c5Doc wPassword = .error (.exc .formatError) := by
  refine ⟨rfl, ?_⟩
  rw [decryptBitwardenJSON_reduce aes0 rsa0 c5Doc wPassword wSecretsNone
    getBitwardenSecretsW_none]
  rfl

/-- C5 (amended): only failures that `decryptCipherString` *returns* —
the MAC-mismatch sentinel string (or a `None`) — are reported inline by
string replacement, and a record whose every match produces such a
returned outcome completes; failures that raise (padding error,
malformed match, undecodable cleartext) escape the loop and abort the
run. -/
theorem C5_onlyReturnedFailuresAreInline (aes : AesCbc) (ek mk2 : Bytes) (uidText : String)
    (ms : List String) (s : String)
    (h : ∀ m ∈ ms, inlineOutcome (decryptCipherString aes (some m) ek mk2) = true) :
    ∃ out, rewriteMatches aes ek mk2 uidText ms s = .ok out := by
  induction ms generalizing s with
  | nil => exact ⟨s, rfl⟩
  | cons m rest ih =>
    have hm : inlineOutcome (decryptCipherString aes (some m) ek mk2) = true :=
      h m (List.mem_cons_self m rest)
    have hrest : ∀ m2 ∈ rest, inlineOutcome (decryptCipherString aes (some m2) ek mk2) = true :=
      fun m2 hm2 => h m2 (List.mem_cons_of_mem m hm2)
    cases hr : decryptCipherString aes (some m) ek mk2 with
    | exc e => rw [hr] at hm; simp [inlineOutcome] at hm
    | ok t =>
      simpa [rewriteMatches, hr, spliceText] using
        ih (pyReplace (pyReplace s m (pyEscapeString t)) uidText "") hrest
    | noneValue =>
      simpa [rewriteMatches, hr, spliceText] using
        ih (pyReplace (pyReplace s m "ul") uidText "") hrest
    | macError =>
      simpa [rewriteMatches, hr, spliceText] using
        ih (pyReplace (pyReplace s m (pyEscapeString csMacErrorText)) uidText "") hrest

/-- C5 witness: a single match whose MAC cannot verify is replaced
inline and the rewrite completes. -/
theorem C5_onlyReturnedFailuresAreInline_witness :
    ∃ out, rewriteMatches aes0 c3Gen c3GenMac (userIdRemovalText "u1") [c1BadKey] "text"
      = .ok out :=
  C5_onlyReturnedFailuresAreInline aes0 c3Gen c3GenMac (userIdRemovalText "u1")
    [c1BadKey] "text" (by decide)

/-! ## Claim C6 -/

/-- C6 counterexample: the userId removal of lines 303-305 sits inside
the regex-match loop, so a record with zero CipherString-shaped
substrings is emitted *unchanged*: its text still contains the full
`"userId": "u1",` key/value pair, contrary to the claim that every
emitted record has it removed. -/
theorem C6_counterexample :
    processRecord aes0 [] c3Gen c3GenMac "u1" .unassigned c6Record =
      .ok (pyDumps (.obj c6Record), .assigned c3Gen c3GenMac) ∧
    containsSub (pyDumps (.obj c6Record)) (userIdRemovalText "u1") = true := by
  exact ⟨rfl, rfl⟩

/-- C6 (amended): a record with zero CipherString-shaped substrings is
emitted textually identical to its serialized input — including any
userId field; the userId text is removed only while processing records
that have at least one match. -/
theorem C6_zeroMatchRecordEmittedUnchanged (aes : AesCbc) (orgSecrets : List (String × Bytes))
    (genEnc genMac : Bytes) (uid : String) (st : KeyState) (record : List (String × JVal))
    (h : findall cipherStringRegex (pyDumps (.obj record)) = []) :
    ∃ st2, processRecord aes orgSecrets genEnc genMac uid st record =
      .ok (pyDumps (.obj record), st2) := by
  simp only [processRecord, h]
  cases selectKeys orgSecrets genEnc genMac st record with
  | unassigned => exact ⟨.unassigned, rfl⟩
  | assigned ek mk2 => exact ⟨.assigned ek mk2, rfl⟩

/-- C6 witness: the amended theorem applied to a concrete match-free
record carrying a userId field. -/
theorem C6_zeroMatchRecordEmittedUnchanged_witness :
    ∃ st2, processRecord aes0 [] c3Gen c3GenMac "u1" .unassigned c6Record =
      .ok (pyDumps (.obj c6Record), st2) :=
  C6_zeroMatchRecordEmittedUnchanged aes0 [] c3Gen c3GenMac "u1" .unassigned c6Record (by rfl)

/-! ## Claim C7 -/

/-- C7 counterexample: with a non-empty `encOrgKeys` and no RSA private
key (`encPrivateKey` null), the run aborts with an uncaught `TypeError`
at the first organization-key unwrap — it does not continue with
organization keys merely underived. -/
theorem C7_counterexample :
    deriveOrgSecrets rsa0 [("org1", "4.AAAA")] .noneValue = .error .typeError ∧
    decryptBitwardenJSON aes0 rsa0 c7Doc wPassword = .error (.exc .typeError) := by
  refine ⟨rfl, ?_⟩
  rw [decryptBitwardenJSON_reduce aes0 rsa0 c7Doc wPassword wSecretsNone
    getBitwardenSecretsW_none]
  rfl

/-- C7 (amended): when no RSA private key is available the graceful path
exists only for an *empty* `encOrgKeys`; any non-empty `encOrgKeys`
makes the organization-key loop raise at its first entry (every
`decryptRSA` call with the `None` key either fails parsing or raises
`TypeError` at the key load). -/
theorem C7_nonEmptyOrgKeysWithoutRSAKeyAborts (rsa : RsaOaep) (i cs : String)
    (rest : List (String × String)) :
    (∃ e, deriveOrgSecrets rsa ((i, cs) :: rest) .noneValue = .error e) ∧
    deriveOrgSecrets rsa [] .noneValue = .ok [] := by
  refine ⟨?_, rfl⟩
  simp only [deriveOrgSecrets, decryptRSA]
  cases h : parseCipherStringRSA cs with
  | error e => exact ⟨e, by simp⟩
  | ok p => exact ⟨.typeError, by simp⟩

/-! ## Claim C8 -/

/-- C8 counterexample: `"2.####|####|####"` has invalid base64 in every
segment, yet Python's decoder discards the out-of-alphabet characters,
parsing succeeds with empty iv/ciphertext/mac, and the call proceeds to
MAC verification and returns the MAC-mismatch outcome — not a distinct
format error raised before decryption work. -/
theorem C8_counterexample :
    parseCipherString c8Malformed = .ok ⟨2, [], [], []⟩ ∧
    decryptCipherString aes0 (some c8Malformed) k0 m0 = .macError ∧
    CSResult.macError ≠ CSResult.exc .formatError := by
  exact ⟨rfl, by decide, by decide⟩

/-- C8 (amended): inputs on which the shared parse *does* raise (missing
segments, non-integer type digit, base64 with an invalid data-character
count) produce the parse-stage exception at every symmetric call site,
before any MAC comparison or cipher work (the outcome is the same for
every cipher function and key), and that exception is distinct from the
MAC-mismatch and padding outcomes; but malformed base64 made only of
discarded characters, or extra segments, parse successfully and proceed
to MAC verification. -/
theorem C8_strictParseFailuresRaiseDistinctError (aes aes2 : AesCbc) (cs : String)
    (key mackey key2 mackey2 : Bytes) (e : PyExc)
    (hne : cs ≠ "") (hp : parseCipherString cs = .error e) :
    decryptCipherString aes (some cs) key mackey = .exc e ∧
    decryptCipherString aes2 (some cs) key2 mackey2 = .exc e ∧
    decryptMasterEncryptionKey aes cs key mackey = .exc e ∧
    decryptRSAPrivateKey aes (some cs) key mackey = .error e ∧
    e = .formatError ∧ PyExc.formatError ≠ PyExc.paddingError := by
  have hf := parseCipherString_error_is_format hp
  refine ⟨?_, ?_, ?_, ?_, hf, by decide⟩
  · simp only [decryptCipherString]
    rw [if_neg hne, hp]
  · simp only [decryptCipherString]
    rw [if_neg hne, hp]
  · simp only [decryptMasterEncryptionKey]
    rw [hp]
  · simp only [decryptRSAPrivateKey]
    rw [if_neg hne, hp]

/-- C8 witness: `"2.AAAA"` (no pipe segments) raises the format
exception at the CipherString call site. -/
theorem C8_strictParseFailuresRaiseDistinctError_witness :
    decryptCipherString aes0 (some "2.AAAA") k0 m0 = .exc .formatError :=
  (C8_strictParseFailuresRaiseDistinctError aes0 aes0 "2.AAAA" k0 m0 k0 m0 .formatError
    (by decide) (by rfl)).1

/-! ## Claim C9 -/

/-- C9 counterexample: a record nested one container deeper than the
group mapping (inside a list) is *not* enumerated: the group value
contains two nested JSON objects by the claim's own notion of nesting,
yet the walker emits an empty group list. -/
theorem C9_counterexample :
    specNestedRecords (.obj c9GroupValue) = [c9GroupValue, c9InnerRecord] ∧
    enumerateRecords c9GroupValue = [] ∧
    decryptBitwardenJSON aes0 rsa0 c9Doc wPassword = .ok [("folders", [])] := by
  refine ⟨rfl, rfl, ?_⟩
  rw [decryptBitwardenJSON_reduce aes0 rsa0 c9Doc wPassword wSecretsNone
    getBitwardenSecretsW_none]
  rfl

/-- C9 (amended): the walker enumerates exactly the *direct* values of
the group's top-level mapping that are themselves JSON objects, in
order; mapping keys and objects nested any deeper are skipped. -/
theorem C9_enumerationIsDepthOneObjects (gv : List (String × JVal)) :
    enumerateRecords gv = gv.filterMap (fun kv => asRecord kv.2) := by
  induction gv with
  | nil => rfl
  | cons kv rest ih =>
    obtain ⟨k, v⟩ := kv
    cases v <;> simp_all [enumerateRecords, asRecord]

/-! ## Claim C10 -/

/-- C10: a `None` or empty CipherString makes both the RSA private-key
unwrap and the per-field symmetric decryption return `None` rather than
raise, and an export whose `encPrivateKey` is null still completes the
key-derivation chain (given its master-key unwrap succeeds) with a
`None` RSA private key. -/
theorem C10_emptyCipherStringsYieldNone (aes : AesCbc) (key mackey : Bytes) (email : String)
    (password : Bytes) (iters : Nat) (encKey : String) (sym enc mac : Bytes)
    (hm : decryptMasterEncryptionKey aes encKey
        (hkdfExpand32 (pbkdf2Sha256 password (utf8Encode email) iters) (utf8Encode "enc"))
        (hkdfExpand32 (pbkdf2Sha256 password (utf8Encode email) iters) (utf8Encode "mac")) =
        .ok sym enc mac) :
    decryptRSAPrivateKey aes none key mackey = .ok .noneValue ∧
    decryptRSAPrivateKey aes (some "") key mackey = .ok .noneValue ∧
    decryptCipherString aes none key mackey = .noneValue ∧
    decryptCipherString aes (some "") key mackey = .noneValue ∧
    ∃ s, getBitwardenSecrets aes email password iters encKey none = .ok s ∧
      s.rsaPrivateKey = .noneValue := by
  refine ⟨rfl, rfl, rfl, rfl, ?_⟩
  simp only [getBitwardenSecrets, hm, decryptRSAPrivateKey]
  exact ⟨_, rfl, rfl⟩

/-- C10 witness: the theorem applied to a concrete export whose
master-key unwrap succeeds and whose `encPrivateKey` is null. -/
theorem C10_emptyCipherStringsYieldNone_witness :
    ∃ s, getBitwardenSecrets aes0 wEmail wPassword 1 wEncKey none = .ok s ∧
      s.rsaPrivateKey = .noneValue :=
  (C10_emptyCipherStringsYieldNone aes0 k0 m0 wEmail wPassword 1 wEncKey
    wKeyMaterial wGenEnc wGenMac masterUnwrapOnW).2.2.2.2
